import Mathlib

/-!
# agent-ping: lifecycle controller and dispatch loop

A shallow embedding of `pingAgent.go`.  The agent runtime (`sdk-agent-go`), the Go
standard library and the resource file system are external collaborators: every call
into them is recorded as an `Effect` in a trace, and what they answer is supplied by
an oracle record (`Runtime`, `Host`).
-/

namespace PingAgent

/-! ## Go values -/

/-- The `*strconv.NumError` value: the failing function, the input and the cause. -/
structure NumError where
  Func : String
  Num : String
  Err : String
  deriving DecidableEq, Repr

/-- An error value handed back by a collaborator; `Error` is the text its `Error()`
method returns. -/
structure GoError where
  Error : String
  deriving DecidableEq, Repr

/-- Modelled from the spec: the `Header` struct of the repository's `schema` package
(not among the sources); a single status string `Z`. -/
structure Header where
  Z : String
  deriving DecidableEq, Repr

/-- Modelled from the spec: the `TestCommand` struct of the `schema` package, with the
three fields the composite literal of `onStateChange` fills in.  `Foo` is a pointer
(`none` is the nil pointer), `X` is an `int32`. -/
structure TestCommand where
  Foo : Option Header
  Value : String
  X : Int
  deriving DecidableEq, Repr

/-- Modelled from the spec: the `TestedEvent` struct of the `schema` package; the
handler reads its `Value` field only. -/
structure TestedEvent where
  Value : String
  deriving DecidableEq, Repr

/-- The functions of the agent that are handed to the runtime as callbacks. -/
inductive Callback
  | onStateChange
  | onTestedEvent
  deriving DecidableEq, Repr

/-- The closures handed to `a.Go`. -/
inductive Task
  | dispatchLoop
  deriving DecidableEq, Repr

/-- One observable call into the runtime, the standard library or the file system. -/
inductive Effect
  | Open (path : String)
  | ReadAll (file : String)
  | Unmarshal (manifest : String)
  | NewAgent (manifest : String)
  | SetDefaultConfigOption (key : String) (value : Int)
  | FlagsInt32 (command : Nat) (name : String) (value : Int) (usage : String)
  | LoadAvroSchema (raw : String)
  | SchemaRegister (schema : String)
  | TypeRegister (name : String) (goType : String)
  | RegisterStateCallback (cb : Callback)
  | RegisterEventCallback (filter : List (String × String)) (cb : Callback)
  | Go (task : Task)
  | GetConfigString (key : String)
  | After (d : Int)
  | SendCommand (peer : String) (cmd : TestCommand)
  | Info (msg : String)
  | Error (msg : String)
  | println (msg : String)
  deriving DecidableEq, Repr

deriving instance DecidableEq for Except

/-! ## `strconv.Atoi` and `time.Duration` -/

/-- The constant `strconv.IntSize` of a 64-bit platform. -/
def intSize : Nat := 64

/-- The value of `strconv.ErrSyntax`. -/
def ErrSyntax : String := "invalid syntax"

/-- The value of `strconv.ErrRange`. -/
def ErrRange : String := "value out of range"

/-- The digit loop of `strconv.ParseUint(s, 10, 64)`: a byte that is not a decimal
digit is a syntax error, an accumulator leaving `uint64` a range error, whichever
comes first.  Go walks the bytes of the string; a character outside ASCII is encoded
in bytes that are no digits, so walking the characters rejects it in the same way. -/
def ParseUint.loop (maxVal cutoff : Nat) : List Char → Nat → Except String Nat
  | [], n => .ok n
  | c :: cs, n =>
    if 48 ≤ c.toNat ∧ c.toNat ≤ 57 then
      let d := c.toNat - 48
      if cutoff ≤ n then .error ErrRange
      else
        let n10 := (n * 10) % 2 ^ 64
        let n1 := (n10 + d) % 2 ^ 64
        if n1 < n10 ∨ maxVal < n1 then .error ErrRange
        else ParseUint.loop maxVal cutoff cs n1
    else .error ErrSyntax

/-- The function `strconv.ParseUint(s, 10, 64)`, on the bytes of `s`; the error is the
`Err` field of the `NumError`. -/
def ParseUint (s : List Char) : Except String Nat :=
  match s with
  | [] => .error ErrSyntax
  | _ => ParseUint.loop (2 ^ 64 - 1) ((2 ^ 64 - 1) / 10 + 1) s 0

/-- The function `strconv.ParseInt(s, 10, 0)`: an optional sign, then `ParseUint`,
then the check against the `int` range (a range error of `ParseUint` ends as a range
error here as well). -/
def ParseInt (s : List Char) : Except String Int :=
  match s with
  | [] => .error ErrSyntax
  | c :: cs =>
    let neg := decide (c = '-')
    let body := if c = '+' ∨ c = '-' then cs else c :: cs
    match ParseUint body with
    | .error e => .error e
    | .ok un =>
      let cutoff := 2 ^ (intSize - 1)
      if ¬ neg ∧ cutoff ≤ un then .error ErrRange
      else if neg ∧ cutoff < un then .error ErrRange
      else .ok (if neg then - (un : Int) else (un : Int))

/-- The function `strconv.Atoi`: `ParseInt(s, 10, 0)` with the error attributed to
`Atoi` and carrying the whole input. -/
def Atoi (s : String) : Except NumError Int :=
  match ParseInt s.data with
  | .error e => .error { Func := "Atoi", Num := s, Err := e }
  | .ok n => .ok n

/-- Reduction of a mathematical integer to `int64`, wrapping modulo `2 ^ 64`. -/
def wrapInt64 (x : Int) : Int := (x + 2 ^ 63) % 2 ^ 64 - 2 ^ 63

/-- The constant `time.Millisecond`, in nanoseconds. -/
def Millisecond : Int := 1000000

/-- The conversion `time.Duration(delay)` of an `int`. -/
def Duration (delay : Int) : Int := wrapInt64 delay

/-- The expression `time.Duration(delay) * time.Millisecond`, an `int64` product. -/
def timerDuration (delay : Int) : Int := wrapInt64 (Duration delay * Millisecond)

/-! ## The dispatch loop -/

/-- What the collaborators answer at one moment of the run: the configuration as it
stands then, the random source (as a function of the bound passed to it), the send
primitive (`none` is a nil error) and the subscription primitive. -/
structure Runtime where
  GetConfigString : String → String
  Int31n : Int → Int
  SendCommand : String → TestCommand → Option GoError
  RegisterEventCallback : List (String × String) → Callback → Except GoError String

/-- The branch taken by one `select` of the loop: the quit channel, or the timer
channel together with what the collaborators answer during that tick. -/
inductive Select
  | quit
  | timer (rt : Runtime)

/-- Where a run of the closure stands once the given branches have been taken. -/
inductive Status
  | waiting
  | returned (err : Option NumError)
  deriving DecidableEq, Repr

/-- The body of the timer case: build the command with a fresh random sample, send it
to the pong agent, and report the outcome of the send. -/
def pingOnce (rt : Runtime) : List Effect :=
  let cmd : TestCommand := { Foo := some { Z := "ok" }, Value := "ping", X := rt.Int31n 1000 }
  match rt.SendCommand "agent-pong" cmd with
  | some err => [.SendCommand "agent-pong" cmd, .Error err.Error]
  | none => [.SendCommand "agent-pong" cmd, .Info "ping"]

/-- The `for { select { ... } }` of the closure, with `delay` already parsed.  Each
iteration arms a timer; the quit branch returns nil, the timer branch pings and goes
round again. -/
def loop (delay : Int) : List Select → List Effect × Status
  | [] => ([.After (timerDuration delay)], .waiting)
  | .quit :: _ => ([.After (timerDuration delay)], .returned none)
  | .timer rt :: rest =>
    let next := loop delay rest
    (.After (timerDuration delay) :: (pingOnce rt ++ next.1), next.2)

/-- The closure passed to `a.Go`: read and parse the delay, then loop. -/
def dispatchLoop (rt0 : Runtime) (sel : List Select) : List Effect × Status :=
  match Atoi (rt0.GetConfigString "delay") with
  | .error err => ([.GetConfigString "delay"], .returned (some err))
  | .ok delay =>
    let run := loop delay sel
    (.GetConfigString "delay" :: run.1, run.2)

/-- The commands handed to `SendCommand` in a trace, with their addressee. -/
def sends (tr : List Effect) : List (String × TestCommand) :=
  tr.filterMap fun e => match e with
    | .SendCommand peer cmd => some (peer, cmd)
    | _ => none

/-- The `Info` and `Error` reports of a trace. -/
def reports (tr : List Effect) : List Effect :=
  tr.filter fun e => match e with
    | .Info _ => true
    | .Error _ => true
    | _ => false

/-- The durations of the timers armed in a trace. -/
def timers (tr : List Effect) : List Int :=
  tr.filterMap fun e => match e with
    | .After d => some d
    | _ => none

/-- The keys read from the configuration in a trace. -/
def configReads (tr : List Effect) : List String :=
  tr.filterMap fun e => match e with
    | .GetConfigString key => some key
    | _ => none

/-- The ticks of a run: the timer branches taken before the first quit branch. -/
def elapsed : List Select → List Runtime
  | [] => []
  | .quit :: _ => []
  | .timer rt :: rest => rt :: elapsed rest

/-- A runtime with the given delay setting, whose sends succeed and whose random
source answers `r` reduced below the bound. -/
def quietRuntime (delay : String) (r : Int) : Runtime where
  GetConfigString := fun _ => delay
  Int31n := fun n => r % n
  SendCommand := fun _ _ => none
  RegisterEventCallback := fun _ _ => .ok "1"

/-- A runtime like `quietRuntime` whose sends and subscriptions fail. -/
def failingRuntime (delay : String) (r : Int) : Runtime where
  GetConfigString := fun _ => delay
  Int31n := fun n => r % n
  SendCommand := fun _ _ => some { Error := "no route" }
  RegisterEventCallback := fun _ _ => .error { Error := "channel closed" }

/-! ## The lifecycle controller -/

/-- The connectivity states reported by the runtime (`agentiface.State`); `other`
stands for every value that is neither of the two named constants. -/
inductive State
  | StateDisconnected
  | StateConnected
  | other (code : Nat)
  deriving DecidableEq, Repr

/-- The filter literal of the subscription. -/
def testedEventFilter : List (String × String) :=
  [("type", "crucibuild/agent-example-go#tested-event")]

/-- The method `onStateChange`: on `StateConnected` subscribe, and unless that fails
hand the dispatch loop to `a.Go`; on `StateDisconnected` print the notice. -/
def onStateChange (rt : Runtime) (state : State) : List Effect × Option GoError :=
  match state with
  | .StateConnected =>
    match rt.RegisterEventCallback testedEventFilter .onTestedEvent with
    | .error err => ([.RegisterEventCallback testedEventFilter .onTestedEvent], some err)
    | .ok _ =>
      ([.RegisterEventCallback testedEventFilter .onTestedEvent, .Go .dispatchLoop], none)
  | .StateDisconnected => ([.println "Disconnected!!!"], none)
  | .other _ => ([], none)

/-- The subscriptions attempted in a trace. -/
def subscriptions (tr : List Effect) : List (List (String × String) × Callback) :=
  tr.filterMap fun e => match e with
    | .RegisterEventCallback filter cb => some (filter, cb)
    | _ => none

/-- The tasks handed to `a.Go` in a trace. -/
def spawns (tr : List Effect) : List Task :=
  tr.filterMap fun e => match e with
    | .Go task => some task
    | _ => none

/-- The lines printed by `println` in a trace. -/
def notices (tr : List Effect) : List String :=
  tr.filterMap fun e => match e with
    | .println msg => some msg
    | _ => none

/-- The explicit state of one agent instance: the dispatch loops spawned and not yet
cancelled, and everything the agent has done so far. -/
structure Lifecycle where
  live : Nat
  trace : List Effect
  deriving DecidableEq, Repr

/-- A spawned task stays live when, left alone by its quit channel, it is waiting in
its `select` (a loop whose delay does not parse has already returned). -/
def staysLive (rt : Runtime) : Task → Bool
  | .dispatchLoop => decide ((dispatchLoop rt []).2 = .waiting)

/-- One step of the lifecycle: the runtime delivers a state to `onStateChange`.
Nothing in `onStateChange` cancels a loop, so `live` only grows. -/
def deliver (lc : Lifecycle) (n : Runtime × State) : Lifecycle :=
  let out := onStateChange n.1 n.2
  { live := lc.live + ((spawns out.1).filter (staysLive n.1)).length
    trace := lc.trace ++ out.1 }

/-- The lifecycle state after a sequence of notifications, from a fresh agent. -/
def lifecycle (ns : List (Runtime × State)) : Lifecycle :=
  ns.foldl deliver { live := 0, trace := [] }

/-- The `StateConnected` notifications of a sequence. -/
def connects (ns : List (Runtime × State)) : Nat :=
  (ns.filter (fun n => decide (n.2 = .StateConnected))).length

/-! ## The event handler -/

/-- The dynamic value of `ctx.Message()`, an `interface{}`: the nil interface, a
pointer to one of the message structs (`none` is a nil pointer), or a value of some
other type. -/
inductive Message
  | nil
  | TestedEvent (p : Option TestedEvent)
  | TestCommand (p : Option TestCommand)
  | Header (p : Option Header)
  | other (goType : String)
  deriving DecidableEq, Repr

/-- How a call ends: it returns its `error` result, or it panics. -/
inductive Outcome
  | returned (err : Option GoError)
  | panicked
  deriving DecidableEq, Repr

/-- The method `onTestedEvent`: the type assertion and the field read come first and
panic on anything but a pointer to a `TestedEvent`; then the trace is emitted. -/
def onTestedEvent (message : Message) : List Effect × Outcome :=
  match message with
  | .TestedEvent (some ev) => ([.Info ("Receive tested-event: " ++ ev.Value)], .returned none)
  | _ => ([], .panicked)

/-! ## Construction -/

/-- The embedded `*agentimpl.Agent`, as far as `init` looks into it: the `Use` of each
sub-command of the root command of its command line. -/
structure Agent where
  commands : List String
  deriving DecidableEq, Repr

/-- What the file system, `encoding/json` and the runtime answer during construction.
Every answer may depend on all that was done before it (the trace so far). -/
structure Host where
  Open : List Effect → String → Except GoError String
  ReadAll : List Effect → String → Except GoError String
  Unmarshal : List Effect → String → Except GoError String
  NewAgent : List Effect → String → Except GoError Agent
  LoadAvroSchema : List Effect → String → Except GoError String
  SchemaRegister : List Effect → String → Except GoError String
  TypeRegister : List Effect → String → String → Except GoError String

/-- Construction code: it extends the trace, and ends with a value or with a panic. -/
abbrev Construct (α : Type) : Type := ExceptT GoError (StateM (List Effect)) α

/-- A call whose answer the caller receives: it is recorded, and answered from the
trace before it. -/
def call {α : Type} (e : Effect) (answer : List Effect → α) : Construct α := do
  let tr ← get
  set (tr ++ [e])
  pure (answer tr)

/-- The function `mustOpenResources`: open and read, panicking on either error. -/
def mustOpenResources (h : Host) (path : String) : Construct String := do
  match ← call (.Open path) (fun tr => h.Open tr path) with
  | .error err => throw err
  | .ok file =>
    match ← call (.ReadAll file) (fun tr => h.ReadAll tr file) with
    | .error err => throw err
    | .ok content => pure content

/-- The method `register`: load the schema, returning the error of `LoadAvroSchema`;
then call `SchemaRegister` as a statement, whatever it returns being dropped. -/
def register (h : Host) (rawAvroSchema : String) : Construct (Option GoError) := do
  match ← call (.LoadAvroSchema rawAvroSchema) (fun tr => h.LoadAvroSchema tr rawAvroSchema) with
  | .error err => return some err
  | .ok s =>
    let _ ← call (.SchemaRegister s) (fun tr => h.SchemaRegister tr s)
    return none

/-- The loop of `init` over the sub-commands of the root command: the first one whose
`Use` is "start" (if any) gets the `delay` flag, and the loop breaks. -/
def addDelayFlag (a : Agent) : Construct Unit :=
  match a.commands.indexOf? "start" with
  | some i => call (.FlagsInt32 i "delay" 1000 "The delay for pinging") (fun _ => ())
  | none => pure ()

/-- What `addDelayFlag` adds to the trace. -/
def flagTrace (a : Agent) : List Effect :=
  match a.commands.indexOf? "start" with
  | some i => [.FlagsInt32 i "delay" 1000 "The delay for pinging"]
  | none => []

/-- The method `init`: default option, command-line flag on the first `start`
command, three schemas, two types, then the state callback. -/
def init (h : Host) (a : Agent) : Construct (Option GoError) := do
  call (.SetDefaultConfigOption "delay" 1000) (fun _ => ())
  addDelayFlag a
  let content ← mustOpenResources h "/schema/header.avro"
  match ← register h content with
  | some err => return some err
  | none =>
  let content ← mustOpenResources h "/schema/test-command.avro"
  match ← register h content with
  | some err => return some err
  | none =>
  let content ← mustOpenResources h "/schema/tested-event.avro"
  match ← register h content with
  | some err => return some err
  | none =>
  match ← call (.TypeRegister "crucibuild/agent-example-go#tested-event" "example.TestedEventType")
      (fun tr => h.TypeRegister tr "crucibuild/agent-example-go#tested-event" "example.TestedEventType") with
  | .error err => return some err
  | .ok _ =>
  match ← call (.TypeRegister "crucibuild/agent-example-go#test-command" "example.TestCommandType")
      (fun tr => h.TypeRegister tr "crucibuild/agent-example-go#test-command" "example.TestCommandType") with
  | .error err => return some err
  | .ok _ =>
  call (.RegisterStateCallback .onStateChange) (fun _ => ())
  return none

/-- The function `NewPingAgent`: manifest, runtime agent, `init`; the agent is
returned only when all three went through. -/
def NewPingAgent (h : Host) : Construct (Option Agent × Option GoError) := do
  let manifest ← mustOpenResources h "/resources/manifest.json"
  match ← call (.Unmarshal manifest) (fun tr => h.Unmarshal tr manifest) with
  | .error err => return (none, some err)
  | .ok agentSpec =>
    match ← call (.NewAgent agentSpec) (fun tr => h.NewAgent tr agentSpec) with
    | .error err => return (none, some err)
    | .ok impl =>
      match ← init h impl with
      | some err => return (none, some err)
      | none => return (some impl, none)

/-- Run construction code from an empty trace: how it ends, and the trace. -/
def construct {α : Type} (c : Construct α) : Except GoError α × List Effect :=
  (c.run).run []

/-- A host on which every resource opens (its content is its path) and every call
succeeds. -/
def goodHost : Host where
  Open := fun _ path => .ok path
  ReadAll := fun _ file => .ok file
  Unmarshal := fun _ manifest => .ok manifest
  NewAgent := fun _ _ => .ok { commands := ["version", "start"] }
  LoadAvroSchema := fun _ raw => .ok raw
  SchemaRegister := fun _ s => .ok s
  TypeRegister := fun _ name _ => .ok name

/-- A host like `goodHost` whose registry refuses the header schema. -/
def conflictHost : Host :=
  { goodHost with
    SchemaRegister := fun _ s =>
      if s = "/schema/header.avro" then .error { Error := "schema already registered" }
      else .ok s }



/-! ## Lemmas on the dispatch loop -/

theorem dispatchLoop_of_error (rt0 : Runtime) (sel : List Select) (err : NumError)
    (h : Atoi (rt0.GetConfigString "delay") = .error err) :
    dispatchLoop rt0 sel = ([.GetConfigString "delay"], .returned (some err)) := by
  simp [dispatchLoop, h]

theorem dispatchLoop_of_ok (rt0 : Runtime) (sel : List Select) (D : Int)
    (h : Atoi (rt0.GetConfigString "delay") = .ok D) :
    dispatchLoop rt0 sel = (.GetConfigString "delay" :: (loop D sel).1, (loop D sel).2) := by
  simp [dispatchLoop, h]

theorem sends_pingOnce (rt : Runtime) :
    sends (pingOnce rt)
      = [("agent-pong", { Foo := some { Z := "ok" }, Value := "ping", X := rt.Int31n 1000 })] := by
  simp only [pingOnce]
  split <;> simp [sends]

theorem timers_pingOnce (rt : Runtime) : timers (pingOnce rt) = [] := by
  simp only [pingOnce]
  split <;> simp [timers]

theorem configReads_pingOnce (rt : Runtime) : configReads (pingOnce rt) = [] := by
  simp only [pingOnce]
  split <;> simp [configReads]

theorem sends_loop (D : Int) (sel : List Select) :
    sends (loop D sel).1 = (elapsed sel).map fun rt =>
      ("agent-pong", { Foo := some { Z := "ok" }, Value := "ping", X := rt.Int31n 1000 }) := by
  induction sel with
  | nil => simp [loop, elapsed, sends]
  | cons s rest ih =>
    cases s with
    | quit => simp [loop, elapsed, sends]
    | timer rt =>
      have h1 := sends_pingOnce rt
      simp only [sends] at h1 ih ⊢
      simp [loop, elapsed, List.filterMap_append, h1, ih]

theorem timers_loop (D : Int) (sel : List Select) :
    timers (loop D sel).1 = List.replicate ((elapsed sel).length + 1) (timerDuration D) := by
  induction sel with
  | nil => simp [loop, elapsed, timers]
  | cons s rest ih =>
    cases s with
    | quit => simp [loop, elapsed, timers]
    | timer rt =>
      have h1 := timers_pingOnce rt
      simp only [timers] at h1 ih ⊢
      simp [loop, elapsed, List.filterMap_append, h1, ih, List.replicate_succ]

theorem configReads_loop (D : Int) (sel : List Select) : configReads (loop D sel).1 = [] := by
  induction sel with
  | nil => simp [loop, configReads]
  | cons s rest ih =>
    cases s with
    | quit => simp [loop, configReads]
    | timer rt =>
      have h1 := configReads_pingOnce rt
      simp only [configReads] at h1 ih ⊢
      simp [loop, List.filterMap_append, h1, ih]

theorem loop_never_fails (D : Int) (sel : List Select) (err : NumError) :
    (loop D sel).2 ≠ .returned (some err) := by
  induction sel with
  | nil => simp [loop]
  | cons s rest ih =>
    cases s with
    | quit => simp [loop]
    | timer rt => simpa [loop] using ih

theorem loop_ticks (D : Int) (ticks : List Runtime) :
    loop D (ticks.map .timer)
      = (ticks.flatMap (fun rt => .After (timerDuration D) :: pingOnce rt)
          ++ [.After (timerDuration D)], .waiting) := by
  induction ticks with
  | nil => simp [loop]
  | cons rt rest ih => simp [loop, ih]

theorem loop_ticks_quit (D : Int) (ticks : List Runtime) (post : List Select) :
    loop D (ticks.map .timer ++ .quit :: post)
      = ((loop D (ticks.map .timer)).1, .returned none) := by
  induction ticks with
  | nil => simp [loop]
  | cons rt rest ih => simp [loop, ih]

theorem elapsed_ticks_quit (ticks : List Runtime) (post : List Select) :
    elapsed (ticks.map .timer ++ .quit :: post) = ticks := by
  induction ticks with
  | nil => simp [elapsed]
  | cons rt rest ih => simp [elapsed, ih]

/-! ## Lemmas on `Atoi` and on durations -/

theorem ParseInt_range (s : List Char) (D : Int) (h : ParseInt s = .ok D) :
    -9223372036854775808 ≤ D ∧ D ≤ 9223372036854775807 := by
  unfold ParseInt at h
  cases s with
  | nil => simp at h
  | cons c cs =>
    simp only at h
    split at h
    · simp at h
    · rename_i un hun
      simp only [intSize] at h
      split at h
      · simp at h
      · split at h
        · simp at h
        · rename_i h1 h2
          simp only [Except.ok.injEq] at h
          subst h
          by_cases hneg : c = '-'
          · simp [hneg] at h1 h2 ⊢
            omega
          · simp [hneg] at h1 h2 ⊢
            omega

theorem Atoi_range (s : String) (D : Int) (h : Atoi s = .ok D) :
    -9223372036854775808 ≤ D ∧ D ≤ 9223372036854775807 := by
  unfold Atoi at h
  split at h
  · simp at h
  · rename_i n hn
    simp only [Except.ok.injEq] at h
    subst h
    exact ParseInt_range _ _ hn

theorem wrapInt64_of_range (x : Int) (h1 : -9223372036854775808 ≤ x)
    (h2 : x ≤ 9223372036854775807) : wrapInt64 x = x := by
  unfold wrapInt64
  omega

theorem timerDuration_of_Atoi (s : String) (D : Int) (h : Atoi s = .ok D) :
    timerDuration D = wrapInt64 (D * 1000000) := by
  have hr := Atoi_range s D h
  simp [timerDuration, Duration, Millisecond, wrapInt64_of_range D hr.1 hr.2]

/-! ## The dispatch loop: claims -/

/-- C1: when `strconv.Atoi` rejects the `delay` setting, the closure returns that one
parse error whatever the channels would have delivered; its only action is the read of
the setting, so no timer is armed, nothing is sent and nothing is reported. -/
theorem dispatchLoop_malformed_delay (rt0 : Runtime) (sel : List Select) (err : NumError)
    (h : Atoi (rt0.GetConfigString "delay") = .error err) :
    dispatchLoop rt0 sel = ([.GetConfigString "delay"], .returned (some err)) ∧
    timers (dispatchLoop rt0 sel).1 = [] ∧
    sends (dispatchLoop rt0 sel).1 = [] ∧
    reports (dispatchLoop rt0 sel).1 = [] := by
  rw [dispatchLoop_of_error rt0 sel err h]
  simp [timers, sends, reports]

theorem dispatchLoop_malformed_delay_witness :
    Atoi ((quietRuntime "1s" 7).GetConfigString "delay")
      = .error { Func := "Atoi", Num := "1s", Err := "invalid syntax" } ∧
    dispatchLoop (quietRuntime "1s" 7) [.timer (quietRuntime "1000" 7), .quit]
      = ([.GetConfigString "delay"],
         .returned (some { Func := "Atoi", Num := "1s", Err := "invalid syntax" })) :=
  ⟨by decide,
   (dispatchLoop_malformed_delay (quietRuntime "1s" 7) [.timer (quietRuntime "1000" 7), .quit]
      { Func := "Atoi", Num := "1s", Err := "invalid syntax" } (by decide)).1⟩

/-- C2: the commands sent are, tick by tick, the command with header status "ok", value
"ping" and `x` the answer of `rand.Int31n(1000)` at that tick, each addressed to
"agent-pong"; with a random source that keeps its contract (`Int31n n` lies in
`[0, n)`), every `x` lies in `[0, 1000)`. -/
theorem dispatchLoop_sends_ping (rt0 : Runtime) (sel : List Select)
    (hrand : ∀ rt ∈ elapsed sel, ∀ n : Int, 0 < n → 0 ≤ rt.Int31n n ∧ rt.Int31n n < n) :
    (∀ D, Atoi (rt0.GetConfigString "delay") = .ok D →
      sends (dispatchLoop rt0 sel).1 = (elapsed sel).map fun rt =>
        ("agent-pong", { Foo := some { Z := "ok" }, Value := "ping", X := rt.Int31n 1000 })) ∧
    ∀ p ∈ sends (dispatchLoop rt0 sel).1,
      p.1 = "agent-pong" ∧ p.2.Foo = some { Z := "ok" } ∧ p.2.Value = "ping" ∧
      0 ≤ p.2.X ∧ p.2.X < 1000 := by
  have hok : ∀ D, Atoi (rt0.GetConfigString "delay") = .ok D →
      sends (dispatchLoop rt0 sel).1 = (elapsed sel).map fun rt =>
        ("agent-pong", { Foo := some { Z := "ok" }, Value := "ping", X := rt.Int31n 1000 }) := by
    intro D hD
    rw [dispatchLoop_of_ok rt0 sel D hD, ← sends_loop D sel]
    simp [sends]
  refine ⟨hok, ?_⟩
  intro p hp
  cases hA : Atoi (rt0.GetConfigString "delay") with
  | error err =>
    rw [dispatchLoop_of_error rt0 sel err hA] at hp
    simp [sends] at hp
  | ok D =>
    rw [hok D hA, List.mem_map] at hp
    obtain ⟨rt, hrt, rfl⟩ := hp
    have hr := hrand rt hrt 1000 (by decide)
    exact ⟨rfl, rfl, rfl, hr.1, hr.2⟩

theorem dispatchLoop_sends_ping_witness :
    sends (dispatchLoop (quietRuntime "1000" 0)
        [.timer (quietRuntime "" 4321), .timer (failingRuntime "" 999), .quit]).1
      = [("agent-pong", { Foo := some { Z := "ok" }, Value := "ping", X := 321 }),
         ("agent-pong", { Foo := some { Z := "ok" }, Value := "ping", X := 999 })] :=
  ((dispatchLoop_sends_ping (quietRuntime "1000" 0)
      [.timer (quietRuntime "" 4321), .timer (failingRuntime "" 999), .quit]
      (by
        intro rt hrt n hn
        simp only [elapsed, List.mem_cons, List.mem_nil_iff, or_false] at hrt
        rcases hrt with rfl | rfl
        · exact ⟨Int.emod_nonneg _ (by omega), Int.emod_lt_of_pos _ hn⟩
        · exact ⟨Int.emod_nonneg _ (by omega), Int.emod_lt_of_pos _ hn⟩)).1
    1000 (by decide)).trans (by decide)

/-- C3: a failing send is not fatal.  One tick is one `SendCommand` and one report, the
error text when the send failed and "ping" when it went through; after any sequence of
ticks the loop is waiting in its `select` with a fresh timer; and no run of the loop
ever returns an error. -/
theorem dispatchLoop_send_failure_not_fatal (rt0 : Runtime) (D : Int)
    (h : Atoi (rt0.GetConfigString "delay") = .ok D) :
    (∀ rt : Runtime, (sends (pingOnce rt)).length = 1 ∧
      (∀ e, rt.SendCommand "agent-pong"
            { Foo := some { Z := "ok" }, Value := "ping", X := rt.Int31n 1000 } = some e →
          reports (pingOnce rt) = [.Error e.Error]) ∧
      (rt.SendCommand "agent-pong"
            { Foo := some { Z := "ok" }, Value := "ping", X := rt.Int31n 1000 } = none →
          reports (pingOnce rt) = [.Info "ping"])) ∧
    (∀ ticks : List Runtime,
      dispatchLoop rt0 (ticks.map .timer)
        = (.GetConfigString "delay" ::
            (ticks.flatMap (fun rt => .After (timerDuration D) :: pingOnce rt)
              ++ [.After (timerDuration D)]), .waiting)) ∧
    (∀ sel err, (dispatchLoop rt0 sel).2 ≠ .returned (some err)) := by
  refine ⟨?_, ?_, ?_⟩
  · intro rt
    refine ⟨by simp [sends_pingOnce], ?_, ?_⟩
    · intro e he
      simp [pingOnce, he, reports]
    · intro he
      simp [pingOnce, he, reports]
  · intro ticks
    rw [dispatchLoop_of_ok rt0 _ D h, loop_ticks]
  · intro sel err
    rw [dispatchLoop_of_ok rt0 sel D h]
    exact loop_never_fails D sel err

theorem dispatchLoop_send_failure_not_fatal_witness :
    dispatchLoop (quietRuntime "250" 0) [.timer (failingRuntime "" 42), .timer (quietRuntime "" 7)]
      = ([.GetConfigString "delay",
          .After 250000000,
          .SendCommand "agent-pong" { Foo := some { Z := "ok" }, Value := "ping", X := 42 },
          .Error "no route",
          .After 250000000,
          .SendCommand "agent-pong" { Foo := some { Z := "ok" }, Value := "ping", X := 7 },
          .Info "ping",
          .After 250000000], .waiting) :=
  ((dispatchLoop_send_failure_not_fatal (quietRuntime "250" 0) 250 (by decide)).2.1
    [failingRuntime "" 42, quietRuntime "" 7]).trans (by decide)

/-- C4: when, after any number of ticks, the loop takes the quit branch, it returns nil;
that step adds nothing to what the loop had done while waiting (no send, no report),
and whatever the channels deliver afterwards is never looked at.  In every run the
number of sends is the number of timer branches taken before the first quit. -/
theorem dispatchLoop_cancel (rt0 : Runtime) (D : Int)
    (h : Atoi (rt0.GetConfigString "delay") = .ok D) :
    (∀ (ticks : List Runtime) (post : List Select),
      dispatchLoop rt0 (ticks.map .timer ++ .quit :: post)
        = ((dispatchLoop rt0 (ticks.map .timer)).1, .returned none) ∧
      (sends (dispatchLoop rt0 (ticks.map .timer ++ .quit :: post)).1).length = ticks.length) ∧
    (∀ sel, (sends (dispatchLoop rt0 sel).1).length = (elapsed sel).length) := by
  have hlen : ∀ sel, (sends (dispatchLoop rt0 sel).1).length = (elapsed sel).length := by
    intro sel
    have h1 : sends (dispatchLoop rt0 sel).1 = sends (loop D sel).1 := by
      rw [dispatchLoop_of_ok rt0 sel D h]
      simp [sends]
    rw [h1, sends_loop, List.length_map]
  refine ⟨?_, hlen⟩
  intro ticks post
  refine ⟨?_, ?_⟩
  · rw [dispatchLoop_of_ok rt0 _ D h, dispatchLoop_of_ok rt0 _ D h, loop_ticks_quit]
  · rw [hlen, elapsed_ticks_quit]

theorem dispatchLoop_cancel_witness :
    dispatchLoop (quietRuntime "250" 0)
        [.timer (quietRuntime "" 7), .quit, .timer (quietRuntime "" 8)]
      = ([.GetConfigString "delay",
          .After 250000000,
          .SendCommand "agent-pong" { Foo := some { Z := "ok" }, Value := "ping", X := 7 },
          .Info "ping",
          .After 250000000], .returned none) :=
  (((dispatchLoop_cancel (quietRuntime "250" 0) 250 (by decide)).1
    [quietRuntime "" 7] [.timer (quietRuntime "" 8)]).1).trans (by decide)

/-- C10, as stated, fails: with the setting "9223372036855", which `Atoi` accepts, the
product overflows `int64` and the timer is armed with a negative duration, not with
9223372036855 milliseconds. -/
theorem timer_duration_overflow :
    Atoi ((quietRuntime "9223372036855" 0).GetConfigString "delay") = .ok 9223372036855 ∧
    timers (dispatchLoop (quietRuntime "9223372036855" 0) []).1 = [-9223372036854551616] ∧
    (-9223372036854551616 : Int) ≠ 9223372036855 * 1000000 := by
  decide

/-- C10, amended: the setting is read once, first thing; for every `D` that `Atoi`
accepts, the timer of every iteration (one per tick, and one for the wait in progress)
has the duration `D * 1000000` reduced to `int64`, whatever configuration the later
ticks see; that is `D` milliseconds exactly when `D` is between -9223372036854 and
9223372036854. -/
theorem dispatchLoop_timer_duration (rt0 : Runtime) (D : Int) (sel : List Select)
    (h : Atoi (rt0.GetConfigString "delay") = .ok D) :
    (dispatchLoop rt0 sel).1.head? = some (.GetConfigString "delay") ∧
    configReads (dispatchLoop rt0 sel).1 = ["delay"] ∧
    timers (dispatchLoop rt0 sel).1
      = List.replicate ((elapsed sel).length + 1) (wrapInt64 (D * 1000000)) ∧
    (-9223372036854 ≤ D → D ≤ 9223372036854 → wrapInt64 (D * 1000000) = D * 1000000) := by
  have hr := configReads_loop D sel
  have ht := timers_loop D sel
  rw [timerDuration_of_Atoi _ D h] at ht
  simp only [configReads] at hr
  simp only [timers] at ht
  rw [dispatchLoop_of_ok rt0 sel D h]
  refine ⟨rfl, by simp [configReads, hr], by simp [timers, ht], ?_⟩
  intro h1 h2
  exact wrapInt64_of_range _ (by omega) (by omega)

theorem dispatchLoop_timer_duration_witness :
    timers (dispatchLoop (quietRuntime "250" 0)
        [.timer (quietRuntime "9000" 7), .timer (quietRuntime "soon" 8)]).1
      = [250000000, 250000000, 250000000] :=
  ((dispatchLoop_timer_duration (quietRuntime "250" 0) 250
      [.timer (quietRuntime "9000" 7), .timer (quietRuntime "soon" 8)] (by decide)).2.2.1).trans
    (by decide)

/-! ## The lifecycle controller: claims -/

theorem deliver_live (lc : Lifecycle) (rt : Runtime) (state : State)
    (hsub : ∃ id, rt.RegisterEventCallback testedEventFilter .onTestedEvent = .ok id)
    (hdelay : ∃ D, Atoi (rt.GetConfigString "delay") = .ok D) :
    (deliver lc (rt, state)).live
      = lc.live + (if state = .StateConnected then 1 else 0) := by
  obtain ⟨id, hid⟩ := hsub
  obtain ⟨D, hD⟩ := hdelay
  cases state with
  | StateConnected =>
    simp [deliver, onStateChange, hid, spawns, staysLive, dispatchLoop_of_ok rt [] D hD, loop]
  | StateDisconnected => simp [deliver, onStateChange, spawns]
  | other code => simp [deliver, onStateChange, spawns]

theorem foldl_deliver_live (ns : List (Runtime × State)) (lc : Lifecycle)
    (h : ∀ n ∈ ns,
      (∃ id, n.1.RegisterEventCallback testedEventFilter .onTestedEvent = .ok id) ∧
      ∃ D, Atoi (n.1.GetConfigString "delay") = .ok D) :
    (ns.foldl deliver lc).live = lc.live + connects ns := by
  induction ns generalizing lc with
  | nil => simp [connects]
  | cons n rest ih =>
    obtain ⟨rt, state⟩ := n
    have hn := h (rt, state) (List.mem_cons_self _ _)
    rw [List.foldl_cons, ih _ (fun m hm => h m (List.mem_cons_of_mem _ hm)),
      deliver_live lc rt state hn.1 hn.2]
    by_cases hs : state = .StateConnected
    · simp [connects, hs, List.filter_cons]
      omega
    · simp [connects, hs, List.filter_cons]

/-- C5: on `StateConnected` the subscription comes first, with the filter
`{"type": "crucibuild/agent-example-go#tested-event"}` and the handler `onTestedEvent`.
When it fails, its error is returned as it is and nothing is spawned; when it succeeds,
the dispatch loop is handed to `a.Go` once and nil is returned.  So an error is
returned exactly when the subscription fails. -/
theorem onStateChange_connected (rt : Runtime) :
    (onStateChange rt .StateConnected).1.head?
      = some (.RegisterEventCallback
          [("type", "crucibuild/agent-example-go#tested-event")] .onTestedEvent) ∧
    subscriptions (onStateChange rt .StateConnected).1
      = [([("type", "crucibuild/agent-example-go#tested-event")], .onTestedEvent)] ∧
    (∀ e, rt.RegisterEventCallback
          [("type", "crucibuild/agent-example-go#tested-event")] .onTestedEvent = .error e →
        (onStateChange rt .StateConnected).2 = some e ∧
        spawns (onStateChange rt .StateConnected).1 = []) ∧
    (∀ id, rt.RegisterEventCallback
          [("type", "crucibuild/agent-example-go#tested-event")] .onTestedEvent = .ok id →
        (onStateChange rt .StateConnected).2 = none ∧
        spawns (onStateChange rt .StateConnected).1 = [.dispatchLoop]) ∧
    ((∃ e, (onStateChange rt .StateConnected).2 = some e) ↔
      ∃ e, rt.RegisterEventCallback
          [("type", "crucibuild/agent-example-go#tested-event")] .onTestedEvent = .error e) := by
  cases h : rt.RegisterEventCallback
      [("type", "crucibuild/agent-example-go#tested-event")] .onTestedEvent with
  | error e => simp [onStateChange, testedEventFilter, h, subscriptions, spawns]
  | ok id => simp [onStateChange, testedEventFilter, h, subscriptions, spawns]

/-- C7, as stated, fails: after Connected, Disconnected, Connected, with both
subscriptions succeeding and the delay well-formed, two dispatch loops are live. -/
theorem lifecycle_two_live_loops :
    (quietRuntime "1000" 0).RegisterEventCallback testedEventFilter .onTestedEvent = .ok "1" ∧
    Atoi ((quietRuntime "1000" 0).GetConfigString "delay") = .ok 1000 ∧
    (lifecycle [(quietRuntime "1000" 0, .StateConnected),
                (quietRuntime "1000" 0, .StateDisconnected),
                (quietRuntime "1000" 0, .StateConnected)]).live = 2 := by
  decide

/-- C7, amended: `onStateChange` spawns and never cancels.  For every sequence of
notifications whose subscriptions succeed and whose delays are well-formed, no
notification lowers the number of live dispatch loops, and that number is the number
of `StateConnected` notifications delivered; so it stays at most one exactly for the
sequences with at most one `StateConnected`. -/
theorem lifecycle_live_loops (ns : List (Runtime × State))
    (h : ∀ n ∈ ns,
      (∃ id, n.1.RegisterEventCallback testedEventFilter .onTestedEvent = .ok id) ∧
      ∃ D, Atoi (n.1.GetConfigString "delay") = .ok D) :
    (lifecycle ns).live = connects ns ∧
    ((lifecycle ns).live ≤ 1 ↔ connects ns ≤ 1) ∧
    ∀ n, (lifecycle ns).live ≤ (deliver (lifecycle ns) n).live := by
  have h1 : (lifecycle ns).live = connects ns := by
    simpa [lifecycle] using foldl_deliver_live ns { live := 0, trace := [] } h
  refine ⟨h1, by rw [h1], ?_⟩
  intro n
  simp [deliver]

theorem lifecycle_live_loops_witness :
    (lifecycle [(quietRuntime "1000" 0, .StateDisconnected),
                (quietRuntime "1000" 0, .StateConnected),
                (quietRuntime "1000" 0, .StateDisconnected)]).live = 1 :=
  ((lifecycle_live_loops [(quietRuntime "1000" 0, .StateDisconnected),
                (quietRuntime "1000" 0, .StateConnected),
                (quietRuntime "1000" 0, .StateDisconnected)]
      (by
        intro n hn
        simp only [List.mem_cons, List.mem_nil_iff, or_false] at hn
        rcases hn with rfl | rfl | rfl <;> exact ⟨⟨"1", rfl⟩, ⟨1000, by decide⟩⟩)).1).trans
    (by decide)

/-- C9: on `StateDisconnected` the only action is the one notice "Disconnected!!!", on
any other state but `StateConnected` there is no action at all; either way nothing is
subscribed, spawned or sent, and nil is returned. -/
theorem onStateChange_not_connected (rt : Runtime) (state : State)
    (h : state ≠ .StateConnected) :
    onStateChange rt state
      = (if state = .StateDisconnected then [.println "Disconnected!!!"] else [], none) ∧
    subscriptions (onStateChange rt state).1 = [] ∧
    spawns (onStateChange rt state).1 = [] ∧
    sends (onStateChange rt state).1 = [] := by
  cases state with
  | StateConnected => exact absurd rfl h
  | StateDisconnected => simp [onStateChange, subscriptions, spawns, sends]
  | other code => simp [onStateChange, subscriptions, spawns, sends]

theorem onStateChange_not_connected_witness :
    onStateChange (failingRuntime "1000" 0) .StateDisconnected
      = ([.println "Disconnected!!!"], none) ∧
    onStateChange (failingRuntime "1000" 0) (.other 3) = ([], none) :=
  ⟨(onStateChange_not_connected (failingRuntime "1000" 0) .StateDisconnected (by decide)).1,
   (onStateChange_not_connected (failingRuntime "1000" 0) (.other 3) (by decide)).1⟩

/-! ## The event handler: claims -/

/-- C8: the handler returns nil exactly when the message is a pointer to a
`TestedEvent`, and then its whole trace is the one line "Receive tested-event: "
followed by the event's `Value`; on every other message it panics with an empty
trace.  In no case is anything sent, and an `Info` line is all it ever does. -/
theorem onTestedEvent_spec (message : Message) :
    ((onTestedEvent message).2 = .returned none ↔ ∃ ev, message = .TestedEvent (some ev)) ∧
    (∀ ev, message = .TestedEvent (some ev) →
      onTestedEvent message = ([.Info ("Receive tested-event: " ++ ev.Value)], .returned none)) ∧
    ((¬ ∃ ev, message = .TestedEvent (some ev)) → onTestedEvent message = ([], .panicked)) ∧
    sends (onTestedEvent message).1 = [] ∧
    ∀ e ∈ (onTestedEvent message).1, ∃ msg, e = .Info msg := by
  cases message with
  | TestedEvent p =>
    cases p with
    | none => simp [onTestedEvent, sends]
    | some ev => simp [onTestedEvent, sends]
  | nil => simp [onTestedEvent, sends]
  | TestCommand p => simp [onTestedEvent, sends]
  | Header p => simp [onTestedEvent, sends]
  | other goType => simp [onTestedEvent, sends]

/-! ## Lemmas on construction -/

theorem call_run {α : Type} (e : Effect) (answer : List Effect → α) (tr : List Effect) :
    ((call e answer).run).run tr = (.ok (answer tr), tr ++ [e]) := by
  rfl

theorem bind_run {α β : Type} (x : Construct α) (f : α → Construct β) (tr : List Effect) :
    ((x >>= f).run).run tr =
      match (x.run).run tr with
      | (.ok a, tr1) => ((f a).run).run tr1
      | (.error e, tr1) => (.error e, tr1) := by
  simp only [bind, ExceptT.bind, ExceptT.mk, ExceptT.run, StateT.bind, StateT.run]
  rcases hx : x tr with ⟨r, tr1⟩
  cases r <;> simp [ExceptT.bindCont, pure, StateT.pure]

theorem pure_run {α : Type} (a : α) (tr : List Effect) :
    (((pure a : Construct α)).run).run tr = (.ok a, tr) := by
  rfl

theorem throw_run {α : Type} (e : GoError) (tr : List Effect) :
    (((throw e : Construct α)).run).run tr = (.error e, tr) := by
  rfl

theorem register_run (h : Host) (raw : String) (tr : List Effect) :
    ((register h raw).run).run tr =
      match h.LoadAvroSchema tr raw with
      | .error err => (.ok (some err), tr ++ [.LoadAvroSchema raw])
      | .ok s => (.ok none, tr ++ [.LoadAvroSchema raw] ++ [.SchemaRegister s]) := by
  unfold register
  rw [bind_run, call_run]
  cases hl : h.LoadAvroSchema tr raw with
  | error err => simp [pure_run]
  | ok s => simp [bind_run, call_run, pure_run, Except.map]

theorem mustOpenResources_run (h : Host) (path : String) (tr : List Effect) :
    ((mustOpenResources h path).run).run tr =
      match h.Open tr path with
      | .error err => (.error err, tr ++ [.Open path])
      | .ok file =>
        match h.ReadAll (tr ++ [.Open path]) file with
        | .error err => (.error err, tr ++ [.Open path] ++ [.ReadAll file])
        | .ok content => (.ok content, tr ++ [.Open path] ++ [.ReadAll file]) := by
  unfold mustOpenResources
  rw [bind_run, call_run]
  cases ho : h.Open tr path with
  | error err => simp [throw_run]
  | ok file =>
    simp only [bind_run, call_run]
    cases hr : h.ReadAll (tr ++ [.Open path]) file with
    | error err => simp [throw_run]
    | ok content => simp [pure_run]

theorem addDelayFlag_run (a : Agent) (tr : List Effect) :
    ((addDelayFlag a).run).run tr = (.ok (), tr ++ flagTrace a) := by
  unfold addDelayFlag flagTrace
  cases a.commands.indexOf? "start" <;> simp [call_run, pure_run]

theorem not_mem_flagTrace (a : Agent) :
    Effect.RegisterStateCallback .onStateChange ∉ flagTrace a := by
  unfold flagTrace
  cases a.commands.indexOf? "start" <;> simp

theorem mustOpenResources_keeps (h : Host) (path : String) (tr : List Effect)
    (hk : Effect.RegisterStateCallback .onStateChange ∉ tr) :
    Effect.RegisterStateCallback .onStateChange ∉ (((mustOpenResources h path).run).run tr).2 := by
  rw [mustOpenResources_run]
  split
  · simpa using hk
  · split <;> simpa using hk

theorem register_keeps (h : Host) (raw : String) (tr : List Effect)
    (hk : Effect.RegisterStateCallback .onStateChange ∉ tr) :
    Effect.RegisterStateCallback .onStateChange ∉ (((register h raw).run).run tr).2 := by
  rw [register_run]
  split <;> simpa using hk

theorem register_fails (h : Host) (raw : String) (tr tr1 : List Effect) (err : GoError)
    (hr : ((register h raw).run).run tr = (.ok (some err), tr1)) :
    tr1 = tr ++ [.LoadAvroSchema raw] ∧ h.LoadAvroSchema tr raw = .error err := by
  rw [register_run] at hr
  split at hr
  · rename_i e he
    obtain ⟨h1, h2⟩ := Prod.mk.inj hr
    simp only [Except.ok.injEq, Option.some.injEq] at h1
    subst h1
    exact ⟨h2.symm, he⟩
  · have h1 := (Prod.mk.inj hr).1
    simp at h1

/-- What `init` does with the errors it looks at, from any trace without a state
callback: when it returns an error, that error is the answer of the last call made, a
`LoadAvroSchema` or a `TypeRegister`, and the state callback has not been registered;
when it returns nil, its last act was to register the state callback. -/
theorem init_all_or_nothing (h : Host) (a : Agent) (t : List Effect)
    (ht : Effect.RegisterStateCallback .onStateChange ∉ t) :
    (∀ err, (((init h a).run).run t).1 = .ok (some err) →
      Effect.RegisterStateCallback .onStateChange ∉ (((init h a).run).run t).2 ∧
      ((∃ raw, (((init h a).run).run t).2.getLast? = some (.LoadAvroSchema raw) ∧
          h.LoadAvroSchema (((init h a).run).run t).2.dropLast raw = .error err) ∨
       (∃ name ty, (((init h a).run).run t).2.getLast? = some (.TypeRegister name ty) ∧
          h.TypeRegister (((init h a).run).run t).2.dropLast name ty = .error err))) ∧
    ((((init h a).run).run t).1 = .ok none →
      (((init h a).run).run t).2.getLast? = some (.RegisterStateCallback .onStateChange)) := by
  rcases hres : ((init h a).run).run t with ⟨r, tr⟩
  simp only
  unfold init at hres
  simp only [bind_run, call_run, addDelayFlag_run] at hres
  have i0 : Effect.RegisterStateCallback .onStateChange ∉
      t ++ [Effect.SetDefaultConfigOption "delay" 1000] ++ flagTrace a := by
    simpa using ⟨ht, not_mem_flagTrace a⟩
  generalize t ++ [Effect.SetDefaultConfigOption "delay" 1000] ++ flagTrace a = t0 at hres i0
  rcases hm1 : ((mustOpenResources h "/schema/header.avro").run).run t0 with ⟨rm, tm⟩
  have im1 : Effect.RegisterStateCallback .onStateChange ∉ tm := by
    have hk := mustOpenResources_keeps h "/schema/header.avro" t0 i0
    rw [hm1] at hk
    exact hk
  simp only [bind_run, hm1] at hres
  rcases rm with e | content
  · obtain ⟨rfl, rfl⟩ := Prod.mk.inj hres
    simp
  simp only at hres
  rcases hr1 : ((register h content).run).run tm with ⟨rr, tr1⟩
  have ir1 : Effect.RegisterStateCallback .onStateChange ∉ tr1 := by
    have hk := register_keeps h content tm im1
    rw [hr1] at hk
    exact hk
  simp only [hr1] at hres
  rcases rr with e | o
  · obtain ⟨rfl, rfl⟩ := Prod.mk.inj hres
    simp
  simp only at hres
  rcases o with _ | err
  swap
  · simp only [pure_run] at hres
    obtain ⟨rfl, rfl⟩ := Prod.mk.inj hres
    obtain ⟨rfl, hl⟩ := register_fails h content tm tr1 err hr1
    simp only [Except.ok.injEq, Option.some.injEq, reduceCtorEq, false_implies, and_true]
    rintro _ rfl
    exact ⟨ir1, Or.inl ⟨content, by simp, by simpa using hl⟩⟩
  simp only at hres
  clear hm1 hr1 im1
  rcases hm2 : ((mustOpenResources h "/schema/test-command.avro").run).run tr1 with ⟨rm, tm⟩
  have im2 : Effect.RegisterStateCallback .onStateChange ∉ tm := by
    have hk := mustOpenResources_keeps h "/schema/test-command.avro" tr1 ir1
    rw [hm2] at hk
    exact hk
  simp only [bind_run, hm2] at hres
  rcases rm with e | content
  · obtain ⟨rfl, rfl⟩ := Prod.mk.inj hres
    simp
  simp only at hres
  rcases hr2 : ((register h content).run).run tm with ⟨rr, tr2⟩
  have ir2 : Effect.RegisterStateCallback .onStateChange ∉ tr2 := by
    have hk := register_keeps h content tm im2
    rw [hr2] at hk
    exact hk
  simp only [hr2] at hres
  rcases rr with e | o
  · obtain ⟨rfl, rfl⟩ := Prod.mk.inj hres
    simp
  simp only at hres
  rcases o with _ | err
  swap
  · simp only [pure_run] at hres
    obtain ⟨rfl, rfl⟩ := Prod.mk.inj hres
    obtain ⟨rfl, hl⟩ := register_fails h content tm tr2 err hr2
    simp only [Except.ok.injEq, Option.some.injEq, reduceCtorEq, false_implies, and_true]
    rintro _ rfl
    exact ⟨ir2, Or.inl ⟨content, by simp, by simpa using hl⟩⟩
  simp only at hres
  clear hm2 hr2 im2
  rcases hm3 : ((mustOpenResources h "/schema/tested-event.avro").run).run tr2 with ⟨rm, tm⟩
  have im3 : Effect.RegisterStateCallback .onStateChange ∉ tm := by
    have hk := mustOpenResources_keeps h "/schema/tested-event.avro" tr2 ir2
    rw [hm3] at hk
    exact hk
  simp only [bind_run, hm3] at hres
  rcases rm with e | content
  · obtain ⟨rfl, rfl⟩ := Prod.mk.inj hres
    simp
  simp only at hres
  rcases hr3 : ((register h content).run).run tm with ⟨rr, tr3⟩
  have ir3 : Effect.RegisterStateCallback .onStateChange ∉ tr3 := by
    have hk := register_keeps h content tm im3
    rw [hr3] at hk
    exact hk
  simp only [hr3] at hres
  rcases rr with e | o
  · obtain ⟨rfl, rfl⟩ := Prod.mk.inj hres
    simp
  simp only at hres
  rcases o with _ | err
  swap
  · simp only [pure_run] at hres
    obtain ⟨rfl, rfl⟩ := Prod.mk.inj hres
    obtain ⟨rfl, hl⟩ := register_fails h content tm tr3 err hr3
    simp only [Except.ok.injEq, Option.some.injEq, reduceCtorEq, false_implies, and_true]
    rintro _ rfl
    exact ⟨ir3, Or.inl ⟨content, by simp, by simpa using hl⟩⟩
  simp only at hres
  clear hm3 hr3 im3
  rcases ht1 : h.TypeRegister tr3 "crucibuild/agent-example-go#tested-event" "example.TestedEventType" with err | id
  · simp only [bind_run, call_run, ht1, pure_run] at hres
    obtain ⟨rfl, rfl⟩ := Prod.mk.inj hres
    simp only [Except.ok.injEq, Option.some.injEq, reduceCtorEq, false_implies, and_true]
    rintro _ rfl
    exact ⟨by simpa using ir3, Or.inr ⟨"crucibuild/agent-example-go#tested-event", "example.TestedEventType",
      by simp, by simpa using ht1⟩⟩
  simp only [bind_run, call_run, ht1] at hres
  rcases ht2 : h.TypeRegister (tr3 ++ [Effect.TypeRegister "crucibuild/agent-example-go#tested-event" "example.TestedEventType"]) "crucibuild/agent-example-go#test-command" "example.TestCommandType" with err | id
  · simp only [bind_run, call_run, ht2, pure_run] at hres
    obtain ⟨rfl, rfl⟩ := Prod.mk.inj hres
    simp only [Except.ok.injEq, Option.some.injEq, reduceCtorEq, false_implies, and_true]
    rintro _ rfl
    exact ⟨by simpa using ir3, Or.inr ⟨"crucibuild/agent-example-go#test-command", "example.TestCommandType",
      by simp, by simpa using ht2⟩⟩
  simp only [bind_run, call_run, ht2] at hres
  simp only [pure_run] at hres
  obtain ⟨rfl, rfl⟩ := Prod.mk.inj hres
  simp

/-- What `NewPingAgent` returns: an agent exactly when the error is nil; with an agent,
the last act of construction was to register the state callback; with an error, the
state callback has not been registered. -/
theorem NewPingAgent_all_or_nothing (h : Host) (agent : Option Agent) (err : Option GoError)
    (hres : (construct (NewPingAgent h)).1 = .ok (agent, err)) :
    (agent.isSome ↔ err = none) ∧
    (agent.isSome →
      (construct (NewPingAgent h)).2.getLast? = some (.RegisterStateCallback .onStateChange)) ∧
    (err.isSome →
      Effect.RegisterStateCallback .onStateChange ∉ (construct (NewPingAgent h)).2) := by
  rcases hrun : construct (NewPingAgent h) with ⟨r, tr⟩
  rw [hrun] at hres
  simp only at hres
  subst hres
  unfold construct NewPingAgent at hrun
  rcases hm : ((mustOpenResources h "/resources/manifest.json").run).run [] with ⟨rm, tm⟩
  have im : Effect.RegisterStateCallback .onStateChange ∉ tm := by
    have hk := mustOpenResources_keeps h "/resources/manifest.json" [] (by simp)
    rw [hm] at hk
    exact hk
  simp only [bind_run, hm] at hrun
  rcases rm with e | manifest
  · simp at hrun
  simp only [call_run] at hrun
  rcases hu : h.Unmarshal tm manifest with e | agentSpec
  · simp only [hu, pure_run] at hrun
    obtain ⟨h1, rfl⟩ := Prod.mk.inj hrun
    simp only [Except.ok.injEq, Prod.mk.injEq] at h1
    obtain ⟨rfl, rfl⟩ := h1
    simpa using im
  simp only [hu, bind_run, call_run] at hrun
  rcases hn : h.NewAgent (tm ++ [Effect.Unmarshal manifest]) agentSpec with e | impl
  · simp only [hn, pure_run] at hrun
    obtain ⟨h1, rfl⟩ := Prod.mk.inj hrun
    simp only [Except.ok.injEq, Prod.mk.injEq] at h1
    obtain ⟨rfl, rfl⟩ := h1
    simpa using im
  simp only [hn, bind_run] at hrun
  have hinit := init_all_or_nothing h impl
    (tm ++ [Effect.Unmarshal manifest] ++ [Effect.NewAgent agentSpec]) (by simpa using im)
  rcases hi : ((init h impl).run).run
    (tm ++ [Effect.Unmarshal manifest] ++ [Effect.NewAgent agentSpec]) with ⟨ri, ti⟩
  rw [hi] at hinit
  simp only [hi] at hrun
  rcases ri with e | o
  · simp at hrun
  rcases o with _ | e
  · simp only [pure_run] at hrun
    obtain ⟨h1, rfl⟩ := Prod.mk.inj hrun
    simp only [Except.ok.injEq, Prod.mk.injEq] at h1
    obtain ⟨rfl, rfl⟩ := h1
    simpa using hinit.2
  · simp only [pure_run] at hrun
    obtain ⟨h1, rfl⟩ := Prod.mk.inj hrun
    simp only [Except.ok.injEq, Prod.mk.injEq] at h1
    obtain ⟨rfl, rfl⟩ := h1
    simpa using (hinit.1 e rfl).1

/-! ## Construction: claims -/

/-- C6: on a host whose registry refuses the header schema, `SchemaRegister` reports an
error, yet `init` carries on through every later registration, registers the state
callback and returns nil, and `NewPingAgent` returns the agent with a nil error. -/
theorem init_drops_SchemaRegister_error :
    conflictHost.SchemaRegister
        [.SetDefaultConfigOption "delay" 1000,
         .FlagsInt32 1 "delay" 1000 "The delay for pinging",
         .Open "/schema/header.avro", .ReadAll "/schema/header.avro",
         .LoadAvroSchema "/schema/header.avro"]
        "/schema/header.avro"
      = .error { Error := "schema already registered" } ∧
    construct (init conflictHost { commands := ["version", "start"] })
      = (.ok none,
         [.SetDefaultConfigOption "delay" 1000,
          .FlagsInt32 1 "delay" 1000 "The delay for pinging",
          .Open "/schema/header.avro", .ReadAll "/schema/header.avro",
          .LoadAvroSchema "/schema/header.avro", .SchemaRegister "/schema/header.avro",
          .Open "/schema/test-command.avro", .ReadAll "/schema/test-command.avro",
          .LoadAvroSchema "/schema/test-command.avro",
          .SchemaRegister "/schema/test-command.avro",
          .Open "/schema/tested-event.avro", .ReadAll "/schema/tested-event.avro",
          .LoadAvroSchema "/schema/tested-event.avro",
          .SchemaRegister "/schema/tested-event.avro",
          .TypeRegister "crucibuild/agent-example-go#tested-event" "example.TestedEventType",
          .TypeRegister "crucibuild/agent-example-go#test-command" "example.TestCommandType",
          .RegisterStateCallback .onStateChange]) ∧
    (construct (NewPingAgent conflictHost)).1
      = .ok (some { commands := ["version", "start"] }, none) := by
  decide

end PingAgent
